import Mathlib

/-!
Verification of the connection-establishment subsystem of an encrypted mesh
overlay node (the `Dialer` of `src/yggdrasil/dialer.go`).

The Go source is shallowly embedded as executable Lean functions:
* `hexDecode` embeds `hex.DecodeString`,
* `atoi` embeds `strconv.Atoi` (64-bit `int`),
* `splitSlash` embeds `strings.Split(address, "/")`,
* `buildMask` embeds the bit-setting loop of the `"nodeid"` branch, with
  `Option` capturing the possible out-of-range array-index panic,
* `resolveAddress` embeds the address-parsing part of `DialContext`,
* `dialByNodeIDandMask`, `dialByPublicKey`, `dialContext`, `dial` embed the
  dial state machine; the overlay search and the handshake-completion signal
  are abstracted by a `DialWorld` environment, and time is in nanoseconds
  as in Go's `time.Duration`.
-/

/-- Size in bytes of a node identifier (`crypto.NodeID`, a SHA-512 digest). -/
def nodeIDLen : Nat := 64

/-- Size in bytes of an encryption public key (`crypto.BoxPubKeyLen`). -/
def boxPubKeyLen : Nat := 32

/-- Value of one hexadecimal digit character, as accepted by Go's
`encoding/hex.fromHexChar`: `0-9`, `a-f`, `A-F`. -/
def hexDigit (c : Char) : Option Nat :=
  if '0' ≤ c ∧ c ≤ '9' then some (c.toNat - 48)
  else if 'a' ≤ c ∧ c ≤ 'f' then some (c.toNat - 87)
  else if 'A' ≤ c ∧ c ≤ 'F' then some (c.toNat - 55)
  else none

/-- Decode a list of hex characters two at a time, as `hex.DecodeString`
does; `none` on an invalid digit or an odd-length input. -/
def hexDecodeList : List Char → Option (List Nat)
  | [] => some []
  | [_] => none
  | c1 :: c2 :: rest =>
    match hexDigit c1, hexDigit c2, hexDecodeList rest with
    | some h, some l, some tail => some ((h * 16 + l) :: tail)
    | _, _, _ => none

/-- Embedding of Go's `hex.DecodeString`. -/
def hexDecode (s : String) : Option (List Nat) :=
  hexDecodeList s.data

/-- Value of one decimal digit character, `none` otherwise. -/
def decDigit (c : Char) : Option Nat :=
  if '0' ≤ c ∧ c ≤ '9' then some (c.toNat - 48) else none

/-- Parse a non-empty all-digit run into a `Nat` (accumulator form, as in
`strconv.ParseInt`). -/
def decDigitsAux (acc : Nat) : List Char → Option Nat
  | [] => some acc
  | c :: cs =>
    match decDigit c with
    | some d => decDigitsAux (acc * 10 + d) cs
    | none => none

/-- Parse a digit run, requiring at least one digit. -/
def decDigits : List Char → Option Nat
  | [] => none
  | cs => decDigitsAux 0 cs

/-- Smallest value of Go's 64-bit `int`. -/
def goIntMin : Int := -9223372036854775808

/-- Largest value of Go's 64-bit `int`. -/
def goIntMax : Int := 9223372036854775807

/-- Embedding of Go's `strconv.Atoi`: optional sign, then one or more
decimal digits, failing on anything else and on 64-bit overflow. -/
def atoi (s : String) : Option Int :=
  match s.data with
  | [] => none
  | c :: rest =>
    let signed : Bool × List Char :=
      if c = '-' then (true, rest)
      else if c = '+' then (false, rest)
      else (false, c :: rest)
    match decDigits signed.2 with
    | none => none
    | some n =>
      let v : Int := if signed.1 then -(n : Int) else (n : Int)
      if v < goIntMin ∨ goIntMax < v then none else some v

/-- Split a character list at every `/`, keeping empty segments, as Go's
`strings.Split(s, "/")` does. -/
def splitSlashAux : List Char → List Char → List (List Char)
  | [], acc => [acc.reverse]
  | c :: cs, acc =>
    if c = '/' then acc.reverse :: splitSlashAux cs []
    else splitSlashAux cs (c :: acc)

/-- Embedding of Go's `strings.Split(address, "/")`. -/
def splitSlash (s : String) : List String :=
  (splitSlashAux s.data []).map (fun l => String.mk l)

/-- The zero-initialised `crypto.NodeID` array. -/
def zeroNodeID : List Nat := List.replicate nodeIDLen 0

/-- The all-ones mask written by `for i := range nodeMask { nodeMask[i] = 0xFF }`. -/
def allOnesMask : List Nat := List.replicate nodeIDLen 255

/-- Embedding of Go's `copy(dst[:], src)` into a fixed-size array: the first
`min (dst.length) (src.length)` bytes come from `src`, the rest keep their
old values. -/
def copyInto (dst src : List Nat) : List Nat :=
  src.take dst.length ++ dst.drop src.length

/-- One iteration of the mask loop: `nodeMask[idx/8] |= 0x80 >> byte(idx%8)`.
Go panics when `idx/8` is out of range; the panic is modelled as `none`. -/
def setMaskBit (m : List Nat) (idx : Nat) : Option (List Nat) :=
  if idx / 8 < m.length then
    some (m.set (idx / 8) ((m.getD (idx / 8) 0) ||| (128 >>> (idx % 8))))
  else none

/-- The mask loop after `n` iterations, starting from the zeroed mask. -/
def buildMaskAux : Nat → Option (List Nat)
  | 0 => some zeroNodeID
  | n + 1 =>
    match buildMaskAux n with
    | some m => setMaskBit m n
    | none => none

/-- Embedding of `for idx := 0; idx < l; idx++ { nodeMask[idx/8] |= 0x80 >> byte(idx%8) }`
with `l` a Go `int`: a negative bound runs zero iterations. -/
def buildMask (l : Int) : Option (List Nat) :=
  buildMaskAux l.toNat

/-- Bit `j` (big-endian within each byte, as the mask loop writes it) of a
byte-list mask. -/
def maskTestBit (m : List Nat) (j : Nat) : Bool :=
  (m.getD (j / 8) 0).testBit (7 - j % 8)

/-- The errors `DialContext` can return before any dial begins, by source
site: hex-decode failure, `strconv.Atoi` failure, the explicit
`"invalid key length supplied"` error, and the `default:` branch's
`"unexpected address type"` error. -/
inductive AddrError where
  | hexError
  | atoiError
  | invalidKeyLength
  | unsupportedScheme
deriving DecidableEq, Repr

/-- The spec's `InvalidAddress` error kind: malformed encoding, wrong
decoded length, or malformed prefix count. -/
def isInvalidAddress : AddrError → Bool
  | .hexError => true
  | .atoiError => true
  | .invalidKeyLength => true
  | .unsupportedScheme => false

/-- Outcome of the address-parsing part of `DialContext`: dispatch to
`DialByNodeIDandMask`, dispatch to `DialByPublicKey`, an early error, or a
runtime panic (out-of-range mask index). -/
inductive Resolved where
  | byNode (nodeID mask : List Nat)
  | byKey (pubKey : List Nat)
  | err (e : AddrError)
  | panicked
deriving DecidableEq, Repr

/-- The `case "nodeid":` branch of `DialContext`, applied to the tokens of
`strings.Split(address, "/")`. -/
def resolveNodeID (tokens : List String) : Resolved :=
  match tokens with
  | [t0, t1] =>
    match atoi t1 with
    | none => .err .atoiError
    | some l =>
      match hexDecode t0 with
      | none => .err .hexError
      | some dest =>
        match buildMask l with
        | none => .panicked
        | some mask => .byNode (copyInto zeroNodeID dest) mask
  | ts =>
    match hexDecode (ts.headD "") with
    | none => .err .hexError
    | some dest => .byNode (copyInto zeroNodeID dest) allOnesMask

/-- The address-parsing part of `DialContext`: the `switch network` with
`"http"` falling through to `"curve25519"`, the `"nodeid"` case, and the
`default:` case. -/
def resolveAddress (network address : String) : Resolved :=
  if network = "http" ∨ network = "curve25519" then
    match hexDecode address with
    | none => .err .hexError
    | some dest =>
      if dest.length ≠ boxPubKeyLen then .err .invalidKeyLength
      else .byKey dest
  else if network = "nodeid" then
    resolveNodeID (splitSlash address)
  else .err .unsupportedScheme

/-- One nanosecond-granularity second, as in Go's `time.Duration`. -/
def second : Nat := 1000000000

/-- The `6*time.Second` default handshake window. -/
def sixSeconds : Nat := 6 * second

/-- Abstraction of the environment a dial runs in: the outcome of
`conn.search()` (the overlay lookup), its wall-clock duration, and the
delay after lookup completion at which `conn.session.init` fires
(`none`: the handshake never completes). -/
structure DialWorld where
  searchErr : Option String
  searchDur : Nat
  initDelay : Option Nat
deriving DecidableEq, Repr

/-- The connection value `newConn(d.core, nodeID, nodeMask, nil)` binds:
the target identifier and mask the channel was created with. -/
structure Conn where
  nodeID : List Nat
  mask : List Nat
deriving DecidableEq, Repr

/-- Terminal dial errors of `DialByNodeIDandMask`: the search error
propagated as-is, or the `"session handshake timeout"` error. -/
inductive DialError where
  | searchFailed (cause : String)
  | handshakeTimeout
deriving DecidableEq, Repr

/-- The value `DialByNodeIDandMask` returns: `(conn, nil)` or `(nil, err)`. -/
inductive DialOutcome where
  | ok (c : Conn)
  | error (e : DialError)
deriving DecidableEq, Repr

/-- Result of one dial attempt: the returned value and whether
`conn.Close()` was called on the pending connection. -/
structure DialResult where
  outcome : DialOutcome
  connClosed : Bool
deriving DecidableEq, Repr

/-- Embedding of `context.WithTimeout(ctx, 6*time.Second)` evaluated at
lookup-completion time `endSearch`: a `nil`/deadline-free context gets
`endSearch + 6s`; a context carrying deadline `d` gets the earlier of the
two (Go's `WithDeadline` keeps the parent's deadline when it is sooner). -/
def effectiveDeadline (callerDeadline : Option Nat) (endSearch : Nat) : Nat :=
  match callerDeadline with
  | none => endSearch + sixSeconds
  | some d => min d (endSearch + sixSeconds)

/-- Embedding of `DialByNodeIDandMask`: build the pending conn, run the
search, then race `conn.session.init` against the effective deadline. The
`select` is resolved in favour of the init signal exactly when it fires
strictly before the deadline. -/
def dialByNodeIDandMask (w : DialWorld) (callerDeadline : Option Nat)
    (startDial : Nat) (nodeID nodeMask : List Nat) : DialResult :=
  let conn : Conn := ⟨nodeID, nodeMask⟩
  match w.searchErr with
  | some cause => { outcome := .error (.searchFailed cause), connClosed := true }
  | none =>
    let endSearch := startDial + w.searchDur
    let deadline := effectiveDeadline callerDeadline endSearch
    match w.initDelay with
    | some h =>
      if endSearch + h < deadline then { outcome := .ok conn, connClosed := false }
      else { outcome := .error .handshakeTimeout, connClosed := true }
    | none => { outcome := .error .handshakeTimeout, connClosed := true }

/-- Embedding of `DialByPublicKey`, parameterised by the external
key-to-identifier function `g` (`crypto.GetNodeID`). -/
def dialByPublicKey (g : List Nat → List Nat) (w : DialWorld)
    (callerDeadline : Option Nat) (startDial : Nat) (pubKey : List Nat) : DialResult :=
  dialByNodeIDandMask w callerDeadline startDial (g pubKey) allOnesMask

/-- Outcome of a full `DialContext` call: a dial was run, or an error (or
panic) occurred during address parsing, before any lookup. -/
inductive CtxOutcome where
  | dialed (r : DialResult)
  | addrErr (e : AddrError)
  | panicked
deriving DecidableEq, Repr

/-- Embedding of `DialContext`: parse the address, then dispatch to
`DialByPublicKey` or `DialByNodeIDandMask`. -/
def dialContext (g : List Nat → List Nat) (w : DialWorld)
    (callerDeadline : Option Nat) (startDial : Nat)
    (network address : String) : CtxOutcome :=
  match resolveAddress network address with
  | .byKey k => .dialed (dialByPublicKey g w callerDeadline startDial k)
  | .byNode n m => .dialed (dialByNodeIDandMask w callerDeadline startDial n m)
  | .err e => .addrErr e
  | .panicked => .panicked

/-- Embedding of `Dial`: `DialContext` with a `nil` context, hence no
caller deadline. -/
def dial (g : List Nat → List Nat) (w : DialWorld) (startDial : Nat)
    (network address : String) : CtxOutcome :=
  dialContext g w none startDial network address

/-- A concrete key-to-identifier function used to instantiate theorems on
closed inputs. -/
def gConst : List Nat → List Nat := fun _ => zeroNodeID

/-- A concrete dial environment: search succeeds after 100ms, init fires
50ms later. -/
def wQuick : DialWorld := ⟨none, 100000000, some 50000000⟩


/-! Helper lemmas about list indexing and mask bits. -/

theorem getD_replicate_of_lt (n j a : Nat) (h : j < n) :
    (List.replicate n a).getD j 0 = a := by
  induction n generalizing j with
  | zero => omega
  | succ k ih =>
    cases j with
    | zero => simp [List.replicate]
    | succ j2 =>
      simp only [List.replicate, List.getD_cons_succ]
      exact ih j2 (by omega)

theorem getD_set_split (l : List Nat) (i j v : Nat) (hi : i < l.length) :
    (l.set i v).getD j 0 = if i = j then v else l.getD j 0 := by
  induction l generalizing i j with
  | nil => simp at hi
  | cons a t ih =>
    cases i with
    | zero =>
      cases j with
      | zero => simp
      | succ j2 => simp
    | succ i2 =>
      cases j with
      | zero => simp
      | succ j2 =>
        simp only [List.set, List.getD_cons_succ]
        rw [ih i2 j2 (by simpa using hi)]
        by_cases h : i2 = j2 <;> simp [h]

theorem shift128_testBit (r k : Nat) (hr : r < 8) (hk : k < 8) :
    (128 >>> r).testBit k = decide (r + k = 7) := by
  interval_cases r <;> interval_cases k <;> decide

/-- The mask loop is panic-free for up to 512 iterations and sets exactly
the first `n` bits (big-endian within each byte). -/
theorem buildMaskAux_spec (n : Nat) (hn : n ≤ 512) :
    ∃ m, buildMaskAux n = some m ∧ m.length = 64 ∧
      ∀ j, j < 512 → maskTestBit m j = decide (j < n) := by
  induction n with
  | zero =>
    refine ⟨zeroNodeID, rfl, by simp [zeroNodeID, nodeIDLen], ?_⟩
    intro j hj
    have h0 : (List.replicate 64 0).getD (j / 8) 0 = 0 :=
      getD_replicate_of_lt 64 (j / 8) 0 (by omega)
    rw [show maskTestBit zeroNodeID j
        = ((List.replicate 64 0).getD (j / 8) 0).testBit (7 - j % 8) from rfl,
      h0, Nat.zero_testBit]
    simp
  | succ k ih =>
    obtain ⟨m, hm, hlen, hbits⟩ := ih (by omega)
    have hidx : k / 8 < m.length := by rw [hlen]; omega
    refine ⟨m.set (k / 8) ((m.getD (k / 8) 0) ||| (128 >>> (k % 8))), ?_, ?_, ?_⟩
    · simp [buildMaskAux, hm, setMaskBit, hidx]
    · simpa using hlen
    · intro j hj
      have hbit := hbits j hj
      unfold maskTestBit at hbit ⊢
      rw [getD_set_split m (k / 8) (j / 8) _ hidx]
      by_cases hb : k / 8 = j / 8
      · rw [if_pos hb, hb, Nat.testBit_or, hbit,
          shift128_testBit (k % 8) (7 - j % 8) (by omega) (by omega)]
        by_cases hjk : j = k
        · subst hjk
          simp [show j % 8 + (7 - j % 8) = 7 by omega]
        · have hne : ¬ (k % 8 + (7 - j % 8) = 7) := by omega
          simp only [hne, decide_eq_decide]
          simp [hne]
          omega
      · rw [if_neg hb, hbit]
        simp only [decide_eq_decide]
        omega

/-- Every bit of the all-ones mask is set. -/
theorem allOnesMask_testBit (j : Nat) (hj : j < 512) :
    maskTestBit allOnesMask j = true := by
  have h255 : (List.replicate 64 255).getD (j / 8) 0 = 255 :=
    getD_replicate_of_lt 64 (j / 8) 255 (by omega)
  rw [show maskTestBit allOnesMask j
      = ((List.replicate 64 255).getD (j / 8) 0).testBit (7 - j % 8) from rfl, h255]
  have hk : 7 - j % 8 < 8 := by omega
  set k := 7 - j % 8 with hkdef
  interval_cases k <;> decide

/-- On the `"nodeid"` scheme, `DialContext`'s parsing is the token-level
resolver applied to the slash-split of the address. -/
theorem resolveAddress_nodeid (address : String) :
    resolveAddress "nodeid" address = resolveNodeID (splitSlash address) := by
  unfold resolveAddress
  rw [if_neg (by decide), if_pos rfl]

/-- The two-token `"nodeid"` path: parse the prefix count, decode the hex
identifier, build the mask. -/
theorem resolveNodeID_two_tokens (t0 t1 : String) (l : Int) (dest msk : List Nat)
    (hatoi : atoi t1 = some l) (hhex : hexDecode t0 = some dest)
    (hbm : buildMask l = some msk) :
    resolveNodeID [t0, t1] = .byNode (copyInto zeroNodeID dest) msk := by
  simp [resolveNodeID, hatoi, hhex, hbm]

/-- The non-two-token `"nodeid"` path: decode the first token and use the
all-ones mask. -/
theorem resolveNodeID_other (t0 : String) (rest : List String) (dest : List Nat)
    (hlen : rest.length ≠ 1) (hhex : hexDecode t0 = some dest) :
    resolveNodeID (t0 :: rest) = .byNode (copyInto zeroNodeID dest) allOnesMask := by
  rcases rest with _ | ⟨r1, rest2⟩
  · simp [resolveNodeID, hhex]
  · rcases rest2 with _ | ⟨r2, rest3⟩
    · exact absurd (rfl : ([r1] : List String).length = 1) hlen
    · simp [resolveNodeID, hhex]

/-- A natural prefix count survives the `Int` round-trip of the loop bound. -/
theorem buildMask_natCast (p : Nat) (hp : p ≤ 512) :
    ∃ msk, buildMask ((p : Nat) : Int) = some msk ∧ msk.length = 64 ∧
      ∀ j, j < 512 → maskTestBit msk j = decide (j < p) := by
  obtain ⟨m, hm, hlen, hbits⟩ := buildMaskAux_spec p hp
  refine ⟨m, ?_, hlen, hbits⟩
  unfold buildMask
  rw [Int.toNat_natCast]
  exact hm

/-- `DialContext` dispatches a node-resolved address to `DialByNodeIDandMask`. -/
theorem dialContext_byNode (g : List Nat → List Nat) (w : DialWorld)
    (cd : Option Nat) (startDial : Nat) (network address : String)
    (n m : List Nat) (h : resolveAddress network address = .byNode n m) :
    dialContext g w cd startDial network address
      = .dialed (dialByNodeIDandMask w cd startDial n m) := by
  simp [dialContext, h]

/-- `DialContext` dispatches a key-resolved address to `DialByPublicKey`. -/
theorem dialContext_byKey (g : List Nat → List Nat) (w : DialWorld)
    (cd : Option Nat) (startDial : Nat) (network address : String)
    (k : List Nat) (h : resolveAddress network address = .byKey k) :
    dialContext g w cd startDial network address
      = .dialed (dialByNodeIDandMask w cd startDial (g k) allOnesMask) := by
  simp [dialContext, h, dialByPublicKey]

/-- `DialContext` propagates a parse error without dialing. -/
theorem dialContext_err (g : List Nat → List Nat) (w : DialWorld)
    (cd : Option Nat) (startDial : Nat) (network address : String)
    (e : AddrError) (h : resolveAddress network address = .err e) :
    dialContext g w cd startDial network address = .addrErr e := by
  simp [dialContext, h]

/-- On a key scheme, `DialContext` decodes the address and length-checks it
against the public-key length. -/
theorem resolveAddress_key (network address : String)
    (hn : network = "http" ∨ network = "curve25519") :
    resolveAddress network address
      = match hexDecode address with
        | none => .err .hexError
        | some dest =>
          if dest.length ≠ boxPubKeyLen then .err .invalidKeyLength
          else .byKey dest := by
  unfold resolveAddress
  rw [if_pos hn]

/-- C3: for every identifier-scheme address of the form
`<encoded-identifier>/<prefixBits>` with `prefixBits` between 0 and the
512-bit identifier length, the resolver produces a mask whose first
`prefixBits` bits are set and whose remaining bits are clear; an address
without the suffix produces the all-ones mask. -/
theorem C3_prefix_mask (address t0 t1 : String) (dest : List Nat) (p : Nat) :
    (splitSlash address = [t0, t1] → atoi t1 = some ((p : Nat) : Int) → p ≤ 512 →
      hexDecode t0 = some dest →
      ∃ msk, buildMask ((p : Nat) : Int) = some msk
        ∧ resolveAddress "nodeid" address = .byNode (copyInto zeroNodeID dest) msk
        ∧ (∀ j, j < 512 → maskTestBit msk j = decide (j < p)))
    ∧ (splitSlash address = [t0] → hexDecode t0 = some dest →
      resolveAddress "nodeid" address = .byNode (copyInto zeroNodeID dest) allOnesMask
        ∧ (∀ j, j < 512 → maskTestBit allOnesMask j = true)) := by
  constructor
  · intro hsplit hatoi hp hhex
    obtain ⟨m, hbm, hlen, hbits⟩ := buildMask_natCast p hp
    refine ⟨m, hbm, ?_, hbits⟩
    rw [resolveAddress_nodeid, hsplit]
    exact resolveNodeID_two_tokens t0 t1 _ dest m hatoi hhex hbm
  · intro hsplit hhex
    refine ⟨?_, fun j hj => allOnesMask_testBit j hj⟩
    rw [resolveAddress_nodeid, hsplit]
    exact resolveNodeID_other t0 [] dest (by simp) hhex

/-- C3 witness: the address `"00/8"` resolves to a mask whose first 8 bits
are set. -/
theorem C3_prefix_mask_witness :
    ∃ msk, buildMask ((8 : Nat) : Int) = some msk
      ∧ resolveAddress "nodeid" "00/8" = .byNode (copyInto zeroNodeID [0]) msk
      ∧ (∀ j, j < 512 → maskTestBit msk j = decide (j < 8)) :=
  (C3_prefix_mask "00/8" "00" "8" [0] 8).1 (by decide) (by decide) (by decide)
    (by decide)

/-- C1: for every dial of a located target, the effective handshake
deadline is lookup-completion-time + 6 seconds when the caller supplied no
deadline, and the earlier of the caller's deadline and
lookup-completion-time + 6 seconds otherwise; the dial succeeds exactly
when the handshake delay, measured from lookup completion, is within the
effective window, independently of the lookup duration. -/
theorem C1_effective_deadline (w : DialWorld) (cd : Option Nat) (startDial : Nat)
    (nodeID nodeMask : List Nat) (h : Nat)
    (hsearch : w.searchErr = none) (hinit : w.initDelay = some h) :
    effectiveDeadline none (startDial + w.searchDur)
        = (startDial + w.searchDur) + sixSeconds
    ∧ (∀ d, effectiveDeadline (some d) (startDial + w.searchDur)
        = min d ((startDial + w.searchDur) + sixSeconds))
    ∧ ((dialByNodeIDandMask w cd startDial nodeID nodeMask).outcome
          = .ok ⟨nodeID, nodeMask⟩
        ↔ h < effectiveDeadline cd (startDial + w.searchDur)
              - (startDial + w.searchDur)) := by
  refine ⟨rfl, fun d => rfl, ?_⟩
  simp only [dialByNodeIDandMask, hsearch, hinit]
  by_cases hlt : startDial + w.searchDur + h
      < effectiveDeadline cd (startDial + w.searchDur)
  · rw [if_pos hlt]
    simp only [true_iff]
    omega
  · rw [if_neg hlt]
    constructor
    · intro hcontra
      exact absurd hcontra (by simp)
    · intro hh
      exact absurd (by omega : startDial + w.searchDur + h
        < effectiveDeadline cd (startDial + w.searchDur)) hlt

/-- C1 witness: search of 100 ms, handshake 50 ms later, no caller
deadline. -/
theorem C1_effective_deadline_witness :
    effectiveDeadline none (0 + wQuick.searchDur)
        = (0 + wQuick.searchDur) + sixSeconds
    ∧ (∀ d, effectiveDeadline (some d) (0 + wQuick.searchDur)
        = min d ((0 + wQuick.searchDur) + sixSeconds))
    ∧ ((dialByNodeIDandMask wQuick none 0 zeroNodeID allOnesMask).outcome
          = .ok ⟨zeroNodeID, allOnesMask⟩
        ↔ 50000000 < effectiveDeadline none (0 + wQuick.searchDur)
              - (0 + wQuick.searchDur)) :=
  C1_effective_deadline wQuick none 0 zeroNodeID allOnesMask 50000000 rfl rfl

/-- C2: every dial attempt terminates with exactly one outcome; on lookup
failure the pending connection is closed and the search error returned; on
deadline elapse before the init signal the connection is closed and the
handshake-timeout error returned; a connection is returned open exactly
when the init signal fired before the effective deadline. -/
theorem C2_terminal_outcomes (w : DialWorld) (cd : Option Nat) (startDial : Nat)
    (nodeID nodeMask : List Nat) :
    (∀ cause, w.searchErr = some cause →
      dialByNodeIDandMask w cd startDial nodeID nodeMask
        = ⟨.error (.searchFailed cause), true⟩)
    ∧ (w.searchErr = none → w.initDelay = none →
      dialByNodeIDandMask w cd startDial nodeID nodeMask
        = ⟨.error .handshakeTimeout, true⟩)
    ∧ (∀ h, w.searchErr = none → w.initDelay = some h →
      ¬ (startDial + w.searchDur + h
          < effectiveDeadline cd (startDial + w.searchDur)) →
      dialByNodeIDandMask w cd startDial nodeID nodeMask
        = ⟨.error .handshakeTimeout, true⟩)
    ∧ (∀ c, (dialByNodeIDandMask w cd startDial nodeID nodeMask).outcome = .ok c →
      (dialByNodeIDandMask w cd startDial nodeID nodeMask).connClosed = false
      ∧ c = ⟨nodeID, nodeMask⟩
      ∧ w.searchErr = none
      ∧ ∃ h, w.initDelay = some h
          ∧ startDial + w.searchDur + h
              < effectiveDeadline cd (startDial + w.searchDur)) := by
  refine ⟨?_, ?_, ?_, ?_⟩
  · intro cause hc
    simp [dialByNodeIDandMask, hc]
  · intro hs hi
    simp [dialByNodeIDandMask, hs, hi]
  · intro h hs hi hlt
    simp [dialByNodeIDandMask, hs, hi, hlt]
  · intro c hok
    rcases hse : w.searchErr with _ | cause
    · rcases hin : w.initDelay with _ | h
      · simp [dialByNodeIDandMask, hse, hin] at hok
      · by_cases hlt : startDial + w.searchDur + h
            < effectiveDeadline cd (startDial + w.searchDur)
        · have hres : dialByNodeIDandMask w cd startDial nodeID nodeMask
              = ⟨.ok ⟨nodeID, nodeMask⟩, false⟩ := by
            simp [dialByNodeIDandMask, hse, hin, hlt]
          rw [hres] at hok
          have hc : c = ⟨nodeID, nodeMask⟩ := by
            injection hok with h1
            exact h1.symm
          exact ⟨by rw [hres], hc, rfl, h, rfl, hlt⟩
        · simp [dialByNodeIDandMask, hse, hin, if_neg hlt] at hok
    · simp [dialByNodeIDandMask, hse] at hok

/-- C2 witness: a failing search closes the connection and propagates the
search error. -/
theorem C2_terminal_outcomes_witness :
    dialByNodeIDandMask ⟨some "search failed", 0, none⟩ none 0
        zeroNodeID allOnesMask
      = ⟨.error (.searchFailed "search failed"), true⟩ :=
  (C2_terminal_outcomes ⟨some "search failed", 0, none⟩ none 0
    zeroNodeID allOnesMask).1 "search failed" rfl

/-- C6: for every key-scheme address (both the `"curve25519"` token and its
`"http"` alias), a hex-decode failure or a decoded length different from
the public-key length fails with an invalid-address error before any
lookup; otherwise the dial proceeds with the identifier derived by the
external key-to-identifier function and the all-ones mask. -/
theorem C6_key_scheme (g : List Nat → List Nat) (w : DialWorld)
    (cd : Option Nat) (startDial : Nat) (address : String) :
    (hexDecode address = none →
      dialContext g w cd startDial "curve25519" address = .addrErr .hexError
      ∧ dialContext g w cd startDial "http" address = .addrErr .hexError
      ∧ isInvalidAddress .hexError = true)
    ∧ (∀ dest, hexDecode address = some dest → dest.length ≠ boxPubKeyLen →
      dialContext g w cd startDial "curve25519" address = .addrErr .invalidKeyLength
      ∧ dialContext g w cd startDial "http" address = .addrErr .invalidKeyLength
      ∧ isInvalidAddress .invalidKeyLength = true)
    ∧ (∀ dest, hexDecode address = some dest → dest.length = boxPubKeyLen →
      dialContext g w cd startDial "curve25519" address
        = .dialed (dialByNodeIDandMask w cd startDial (g dest) allOnesMask)
      ∧ dialContext g w cd startDial "http" address
        = .dialed (dialByNodeIDandMask w cd startDial (g dest) allOnesMask)) := by
  refine ⟨?_, ?_, ?_⟩
  · intro hhex
    have h1 : resolveAddress "curve25519" address = .err .hexError := by
      rw [resolveAddress_key "curve25519" address (Or.inr rfl), hhex]
    have h2 : resolveAddress "http" address = .err .hexError := by
      rw [resolveAddress_key "http" address (Or.inl rfl), hhex]
    exact ⟨dialContext_err g w cd startDial _ _ _ h1,
      dialContext_err g w cd startDial _ _ _ h2, rfl⟩
  · intro dest hhex hlen
    have h1 : resolveAddress "curve25519" address = .err .invalidKeyLength := by
      rw [resolveAddress_key "curve25519" address (Or.inr rfl), hhex]
      simp [hlen]
    have h2 : resolveAddress "http" address = .err .invalidKeyLength := by
      rw [resolveAddress_key "http" address (Or.inl rfl), hhex]
      simp [hlen]
    exact ⟨dialContext_err g w cd startDial _ _ _ h1,
      dialContext_err g w cd startDial _ _ _ h2, rfl⟩
  · intro dest hhex hlen
    have h1 : resolveAddress "curve25519" address = .byKey dest := by
      rw [resolveAddress_key "curve25519" address (Or.inr rfl), hhex]
      simp [hlen]
    have h2 : resolveAddress "http" address = .byKey dest := by
      rw [resolveAddress_key "http" address (Or.inl rfl), hhex]
      simp [hlen]
    exact ⟨dialContext_byKey g w cd startDial _ _ _ h1,
      dialContext_byKey g w cd startDial _ _ _ h2⟩

/-- C6 witness: a correctly sized 32-byte key proceeds to the dial with the
derived identifier and the all-ones mask. -/
theorem C6_key_scheme_witness :
    dialContext gConst wQuick none 0 "curve25519"
        "0000000000000000000000000000000000000000000000000000000000000000"
      = .dialed (dialByNodeIDandMask wQuick none 0
          (gConst (List.replicate 32 0)) allOnesMask)
    ∧ dialContext gConst wQuick none 0 "http"
        "0000000000000000000000000000000000000000000000000000000000000000"
      = .dialed (dialByNodeIDandMask wQuick none 0
          (gConst (List.replicate 32 0)) allOnesMask) :=
  (C6_key_scheme gConst wQuick none 0
      "0000000000000000000000000000000000000000000000000000000000000000").2.2
    (List.replicate 32 0) (by decide) (by decide)

/-- C7: every scheme token other than the key-scheme tokens and the
identifier-scheme token fails with the unsupported-scheme error before any
lookup begins. -/
theorem C7_unsupported_scheme (g : List Nat → List Nat) (w : DialWorld)
    (cd : Option Nat) (startDial : Nat) (network address : String)
    (h1 : network ≠ "http") (h2 : network ≠ "curve25519")
    (h3 : network ≠ "nodeid") :
    dialContext g w cd startDial network address = .addrErr .unsupportedScheme
    ∧ isInvalidAddress .unsupportedScheme = false := by
  have hres : resolveAddress network address = .err .unsupportedScheme := by
    unfold resolveAddress
    rw [if_neg (by simp [h1, h2]), if_neg h3]
  exact ⟨dialContext_err g w cd startDial _ _ _ hres, rfl⟩

/-- C7 witness: the scheme token `"tcp"` is rejected. -/
theorem C7_unsupported_scheme_witness :
    dialContext gConst wQuick none 0 "tcp" "00" = .addrErr .unsupportedScheme
    ∧ isInvalidAddress .unsupportedScheme = false :=
  C7_unsupported_scheme gConst wQuick none 0 "tcp" "00"
    (by decide) (by decide) (by decide)

/-- C8: dialing by public key is exactly the composition of deriving the
identifier via the external key-to-identifier function, taking the
all-ones (exact-match) mask, and running the identifier dial state
machine. -/
theorem C8_dial_by_key_composition (g : List Nat → List Nat) (w : DialWorld)
    (cd : Option Nat) (startDial : Nat) (pubKey : List Nat) :
    dialByPublicKey g w cd startDial pubKey
      = dialByNodeIDandMask w cd startDial (g pubKey) allOnesMask
    ∧ (∀ j, j < 512 → maskTestBit allOnesMask j = true) :=
  ⟨rfl, fun j hj => allOnesMask_testBit j hj⟩

/-- C9: an identifier-scheme address with a number of slash separators
different from one is not rejected: only the first token is hex-decoded as
the identifier, the mask is all-ones, and the remaining tokens are
ignored. -/
theorem C9_extra_separators (g : List Nat → List Nat) (w : DialWorld)
    (cd : Option Nat) (startDial : Nat) (address t0 : String)
    (rest : List String) (dest : List Nat)
    (hsplit : splitSlash address = t0 :: rest) (hlen : rest.length ≠ 1)
    (hhex : hexDecode t0 = some dest) :
    resolveAddress "nodeid" address
        = .byNode (copyInto zeroNodeID dest) allOnesMask
    ∧ dialContext g w cd startDial "nodeid" address
        = .dialed (dialByNodeIDandMask w cd startDial
            (copyInto zeroNodeID dest) allOnesMask) := by
  have hres : resolveAddress "nodeid" address
      = .byNode (copyInto zeroNodeID dest) allOnesMask := by
    rw [resolveAddress_nodeid, hsplit]
    exact resolveNodeID_other t0 rest dest hlen hhex
  exact ⟨hres, dialContext_byNode g w cd startDial _ _ _ _ hres⟩

/-- C9 witness: the address `"aa/1/2"` (two separators) resolves to the
first token only, with the all-ones mask. -/
theorem C9_extra_separators_witness :
    resolveAddress "nodeid" "aa/1/2"
        = .byNode (copyInto zeroNodeID [170]) allOnesMask
    ∧ dialContext gConst wQuick none 0 "nodeid" "aa/1/2"
        = .dialed (dialByNodeIDandMask wQuick none 0
            (copyInto zeroNodeID [170]) allOnesMask) :=
  C9_extra_separators gConst wQuick none 0 "aa/1/2" "aa" ["1", "2"] [170]
    (by decide) (by decide) (by decide)

/-- C10: `Dial` is `DialContext` with a `nil` context, so a plain `Dial`
runs with no caller deadline and the default post-lookup window of 6
seconds. -/
theorem C10_dial_is_nil_context (g : List Nat → List Nat) (w : DialWorld)
    (startDial : Nat) (network address : String) :
    dial g w startDial network address
        = dialContext g w none startDial network address
    ∧ (∀ endSearch, effectiveDeadline none endSearch = endSearch + sixSeconds) :=
  ⟨rfl, fun _ => rfl⟩

set_option maxRecDepth 8192 in
/-- C4 (code bug): an out-of-range prefix count is not rejected: a count
above 512 drives the mask loop out of the array bounds (a runtime panic),
and a negative count silently yields the all-zero mask and proceeds to the
lookup; neither path returns an invalid-address error. -/
theorem C4_out_of_range_prefix :
    resolveAddress "nodeid" "00/513" = .panicked
    ∧ resolveAddress "nodeid" "00/-1"
        = .byNode (copyInto zeroNodeID [0]) zeroNodeID
    ∧ dialContext gConst wQuick none 0 "nodeid" "00/-1"
        = .dialed (dialByNodeIDandMask wQuick none 0
            (copyInto zeroNodeID [0]) zeroNodeID) := by
  exact ⟨by decide, by decide, by decide⟩

/-- C5 counterexample: an identifier-scheme address whose decoded
identifier is 1 byte instead of 64 is not rejected: it resolves and the
dial proceeds to the lookup. -/
theorem C5_counterexample :
    resolveAddress "nodeid" "ff"
        = .byNode (copyInto zeroNodeID [255]) allOnesMask
    ∧ dialContext gConst wQuick none 0 "nodeid" "ff"
        = .dialed (dialByNodeIDandMask wQuick none 0
            (copyInto zeroNodeID [255]) allOnesMask) := by
  exact ⟨by decide, by decide⟩

/-- C5 (amended): the resolver performs no length check on the decoded
identifier: the bytes are copied into the zeroed 64-byte identifier
(zero-padding short inputs, truncating long ones) and the dial proceeds to
the lookup, for both the suffix-free and the valid-prefix address forms. -/
theorem C5_no_length_check (g : List Nat → List Nat) (w : DialWorld)
    (cd : Option Nat) (startDial : Nat) (address t0 t1 : String)
    (dest : List Nat) (p : Nat) :
    (copyInto zeroNodeID dest
        = dest.take 64 ++ List.replicate (64 - dest.length) 0)
    ∧ (splitSlash address = [t0] → hexDecode t0 = some dest →
      dest.length ≠ 64 →
      dialContext g w cd startDial "nodeid" address
        = .dialed (dialByNodeIDandMask w cd startDial
            (copyInto zeroNodeID dest) allOnesMask))
    ∧ (splitSlash address = [t0, t1] → atoi t1 = some ((p : Nat) : Int) →
      p ≤ 512 → hexDecode t0 = some dest → dest.length ≠ 64 →
      ∃ msk, buildMask ((p : Nat) : Int) = some msk
        ∧ dialContext g w cd startDial "nodeid" address
            = .dialed (dialByNodeIDandMask w cd startDial
                (copyInto zeroNodeID dest) msk)) := by
  refine ⟨?_, ?_, ?_⟩
  · unfold copyInto zeroNodeID nodeIDLen
    rw [List.drop_replicate]
    simp
  · intro hsplit hhex _
    have hres : resolveAddress "nodeid" address
        = .byNode (copyInto zeroNodeID dest) allOnesMask := by
      rw [resolveAddress_nodeid, hsplit]
      exact resolveNodeID_other t0 [] dest (by simp) hhex
    exact dialContext_byNode g w cd startDial _ _ _ _ hres
  · intro hsplit hatoi hp hhex _
    obtain ⟨m, hbm, hlen, hbits⟩ := buildMask_natCast p hp
    refine ⟨m, hbm, ?_⟩
    have hres : resolveAddress "nodeid" address
        = .byNode (copyInto zeroNodeID dest) m := by
      rw [resolveAddress_nodeid, hsplit]
      exact resolveNodeID_two_tokens t0 t1 _ dest m hatoi hhex hbm
    exact dialContext_byNode g w cd startDial _ _ _ _ hres

/-- C5 amended-claim witness: the 1-byte identifier `"ff"` is zero-padded
and dialed. -/
theorem C5_no_length_check_witness :
    dialContext gConst wQuick none 0 "nodeid" "ff"
      = .dialed (dialByNodeIDandMask wQuick none 0
          (copyInto zeroNodeID [255]) allOnesMask) :=
  (C5_no_length_check gConst wQuick none 0 "ff" "ff" "" [255] 0).2.1
    (by decide) (by decide) (by decide)
